import Mathlib

/-!
Verification of the Tasks + Comments API (`src/main.py`).

The store is embedded as lists of Task and Comment rows plus counters for
the store-generated primary keys. Each HTTP handler becomes a pure function
from a store state (and its inputs) to a new store state and an
`Except ApiError` result; a handler that raises `HTTPException` returns the
unchanged state together with the error.
-/

namespace Api

/-- Errors a handler can surface: `notFound` models `HTTPException(404, detail)`;
`validationFailure` models a FastAPI/pydantic request-validation error (422),
raised before the handler body runs. -/
inductive ApiError where
  | notFound (detail : String)
  | validationFailure
deriving DecidableEq, Repr

/-- A row of the `task` table (`class Task` in `src/main.py`). -/
structure Task where
  id : Int
  title : String
deriving DecidableEq, Repr

/-- A row of the `comment` table (`class Comment` in `src/main.py`). -/
structure Comment where
  id : Int
  task_id : Int
  author : String
  content : String
deriving DecidableEq, Repr

/-- The persistent store: the two tables plus the next primary key each
table will generate. -/
structure StoreState where
  tasks : List Task
  comments : List Comment
  nextTaskId : Int
  nextCommentId : Int
deriving DecidableEq, Repr

/-- The store as created at startup: both tables empty, ids generated from 1. -/
def initialStore : StoreState := ⟨[], [], 1, 1⟩

/-- Body of `POST /tasks/` after validation (`class TaskCreate`): `title` is a
required `str` field with no further constraint. -/
structure TaskCreate where
  title : String
deriving DecidableEq, Repr

/-- Body of `PUT /tasks/{task_id}` (`class TaskUpdate`): `title` is optional. -/
structure TaskUpdate where
  title : Option String
deriving DecidableEq, Repr

/-- Body of `POST /tasks/{task_id}/comments/` (`class CommentCreate`). -/
structure CommentCreate where
  author : String
  content : String
deriving DecidableEq, Repr

/-- Body of `PUT /comments/{comment_id}` (`class CommentUpdate`). -/
structure CommentUpdate where
  author : Option String
  content : Option String
deriving DecidableEq, Repr

/-- The store's `session.get(Task, task_id)`: lookup by primary key. -/
def findTask (s : StoreState) (task_id : Int) : Option Task :=
  s.tasks.find? (fun t => t.id == task_id)

/-- The store's `session.get(Comment, comment_id)`: lookup by primary key. -/
def findComment (s : StoreState) (comment_id : Int) : Option Comment :=
  s.comments.find? (fun c => c.id == comment_id)

/-- Pydantic validation of the `POST /tasks/` body: the `title` field must be
present (`title: str`); any string value, including the empty string, passes. -/
def parseTaskCreate (body : Option String) : Except ApiError TaskCreate :=
  match body with
  | none => .error .validationFailure
  | some t => .ok ⟨t⟩

/-- Handler body of `create_task`: insert a new Task with the store-generated
id and return the stored record. -/
def create_task (s : StoreState) (task : TaskCreate) : StoreState × Task :=
  let db_task : Task := { id := s.nextTaskId, title := task.title }
  ({ s with tasks := s.tasks ++ [db_task], nextTaskId := s.nextTaskId + 1 },
   db_task)

/-- The full `POST /tasks/` endpoint: pydantic validation of the body, then
`create_task`. -/
def create_task_endpoint (s : StoreState) (body : Option String) :
    StoreState × Except ApiError Task :=
  match parseTaskCreate body with
  | .error e => (s, .error e)
  | .ok tc =>
    let (s', t) := create_task s tc
    (s', .ok t)

/-- Handler `list_tasks`: `GET /tasks/`. -/
def list_tasks (s : StoreState) : List Task :=
  s.tasks

/-- Handler `get_task`: `GET /tasks/{task_id}`. -/
def get_task (s : StoreState) (task_id : Int) : Except ApiError Task :=
  match findTask s task_id with
  | none => .error (.notFound "Task not found")
  | some task => .ok task

/-- Handler `update_task`: `PUT /tasks/{task_id}`. The truthy check
`if payload.title:` replaces the stored title only when the payload's title is
present and non-empty. -/
def update_task (s : StoreState) (task_id : Int) (payload : TaskUpdate) :
    StoreState × Except ApiError Task :=
  match findTask s task_id with
  | none => (s, .error (.notFound "Task not found"))
  | some task =>
    let task' : Task :=
      { task with
        title := match payload.title with
          | some t => if t == "" then task.title else t
          | none => task.title }
    ({ s with tasks := s.tasks.map (fun t => if t.id == task_id then task' else t) },
     .ok task')

/-- Handler `delete_task`: `DELETE /tasks/{task_id}`. Deletes only the task
row; comments are untouched (no cascade). -/
def delete_task (s : StoreState) (task_id : Int) :
    StoreState × Except ApiError Unit :=
  match findTask s task_id with
  | none => (s, .error (.notFound "Task not found"))
  | some _ =>
    ({ s with tasks := s.tasks.filter (fun t => t.id != task_id) }, .ok ())

/-- Handler `list_comments`: `GET /tasks/{task_id}/comments/`. The path
parameter is declared `Path(..., gt=0)`, so a non-positive id is rejected by
validation before the handler body runs. -/
def list_comments (s : StoreState) (task_id : Int) :
    Except ApiError (List Comment) :=
  if task_id ≤ 0 then .error .validationFailure
  else
    match findTask s task_id with
    | none => .error (.notFound "Task not found")
    | some _ => .ok (s.comments.filter (fun c => c.task_id == task_id))

/-- Handler `add_comment`: `POST /tasks/{task_id}/comments/`. The path id has
no positivity constraint; the comment's `task_id` is taken from the path. -/
def add_comment (s : StoreState) (task_id : Int) (payload : CommentCreate) :
    StoreState × Except ApiError Comment :=
  match findTask s task_id with
  | none => (s, .error (.notFound "Task not found"))
  | some _ =>
    let comment : Comment :=
      { id := s.nextCommentId, task_id := task_id,
        author := payload.author, content := payload.content }
    ({ s with comments := s.comments ++ [comment],
              nextCommentId := s.nextCommentId + 1 },
     .ok comment)

/-- Handler `get_comment`: `GET /comments/{comment_id}`. -/
def get_comment (s : StoreState) (comment_id : Int) : Except ApiError Comment :=
  match findComment s comment_id with
  | none => .error (.notFound "Comment not found")
  | some comment => .ok comment

/-- Handler `update_comment`: `PUT /comments/{comment_id}`. Each of
`author`/`content` is replaced only when present and non-empty (truthy check). -/
def update_comment (s : StoreState) (comment_id : Int) (payload : CommentUpdate) :
    StoreState × Except ApiError Comment :=
  match findComment s comment_id with
  | none => (s, .error (.notFound "Comment not found"))
  | some comment =>
    let comment' : Comment :=
      { comment with
        author := match payload.author with
          | some a => if a == "" then comment.author else a
          | none => comment.author,
        content := match payload.content with
          | some c => if c == "" then comment.content else c
          | none => comment.content }
    ({ s with comments :=
        s.comments.map (fun c => if c.id == comment_id then comment' else c) },
     .ok comment')

/-- Handler `delete_comment`: `DELETE /comments/{comment_id}`. -/
def delete_comment (s : StoreState) (comment_id : Int) :
    StoreState × Except ApiError Unit :=
  match findComment s comment_id with
  | none => (s, .error (.notFound "Comment not found"))
  | some _ =>
    ({ s with comments := s.comments.filter (fun c => c.id != comment_id) },
     .ok ())

/-- A sample populated store used by the witnesses: one task and one comment. -/
def sampleStore : StoreState := ⟨[⟨1, "A"⟩], [⟨1, 1, "bob", "hi"⟩], 2, 2⟩

/-- Replacing, in a list, every element satisfying `p` by a fixed element `t'`
that itself satisfies `p` makes `t'` the result of `find? p`, provided `find? p`
succeeded before. -/
theorem find?_map_ite {α : Type} (p : α → Bool) (t' x : α) (l : List α)
    (h : l.find? p = some x) (h' : p t' = true) :
    (l.map (fun a => if p a then t' else a)).find? p = some t' := by
  induction l with
  | nil => simp at h
  | cons a l ih =>
    by_cases hpa : p a = true
    · simp only [List.map_cons, if_pos hpa]
      exact List.find?_cons_of_pos _ h'
    · rw [List.find?_cons_of_neg _ hpa] at h
      simp only [List.map_cons, if_neg hpa]
      rw [List.find?_cons_of_neg _ hpa]
      exact ih h

/-- Mapping `g` over a list is unchanged by replacing the elements satisfying
`p` with `t'`, whenever `g t' = g a` for every such element. -/
theorem map_ite_preserves {α β : Type} (g : α → β) (p : α → Bool) (t' : α)
    (l : List α) (h : ∀ a, p a = true → g t' = g a) :
    (l.map (fun a => if p a then t' else a)).map g = l.map g := by
  induction l with
  | nil => rfl
  | cons a l ih =>
    simp only [List.map_cons, ih]
    by_cases hpa : p a = true
    · rw [if_pos hpa, h a hpa]
    · rw [if_neg hpa]

/-- After filtering out every element whose key equals `i`, looking up key `i`
fails. -/
theorem find?_filter_bne {α : Type} (f : α → Int) (i : Int) (l : List α) :
    (l.filter (fun a => f a != i)).find? (fun a => f a == i) = none := by
  rw [List.find?_eq_none]
  intro x hx
  have h2 := (List.mem_filter.mp hx).2
  simp only [bne_iff_ne, ne_eq] at h2
  simp [h2]

/-- Appending one element whose key is fresh for the whole list makes it the
result of looking that key up. -/
theorem find?_append_fresh {α : Type} (p : α → Bool) (l : List α) (a : α)
    (h : ∀ x ∈ l, ¬ p x = true) (ha : p a = true) :
    (l ++ [a]).find? p = some a := by
  rw [List.find?_append, List.find?_eq_none.mpr h]
  simp [List.find?_cons_of_pos _ ha]

/-- C1, counterexample: the claim says a create request whose title is the
empty string fails with ValidationFailure and inserts no Task row. On the code,
`TaskCreate` only requires `title` to be a string, so `POST /tasks/` with
`{title: ""}` on the fresh store succeeds with the stored record `⟨1, ""⟩` and
inserts that row. -/
theorem create_task_empty_title_accepted :
    (create_task_endpoint initialStore (some "")).2 ≠
      Except.error ApiError.validationFailure ∧
    (create_task_endpoint initialStore (some "")).1.tasks = [⟨1, ""⟩] := by
  refine ⟨fun h => ?_, rfl⟩
  rw [show (create_task_endpoint initialStore (some "")).2 =
        Except.ok (⟨1, ""⟩ : Task) from rfl] at h
  exact Except.noConfusion h

/-- C1, amended: a create request whose title field is missing fails with
ValidationFailure before any store access and inserts no Task row; a create
request whose title field is present — even as the empty string — passes
validation and inserts a Task carrying exactly that title. -/
theorem create_task_validation (s : StoreState) (body : Option String) :
    (body = none →
      create_task_endpoint s body = (s, .error .validationFailure)) ∧
    (∀ t, body = some t →
      (create_task_endpoint s body).2 = .ok ⟨s.nextTaskId, t⟩ ∧
      (create_task_endpoint s body).1.tasks = s.tasks ++ [⟨s.nextTaskId, t⟩]) := by
  constructor
  · intro h; subst h; rfl
  · intro t h; subst h; exact ⟨rfl, rfl⟩

/-- C1, witness for the amended theorem at concrete inputs. -/
theorem create_task_validation_witness :
    create_task_endpoint initialStore none =
      (initialStore, .error .validationFailure) ∧
    (create_task_endpoint initialStore (some "A")).2 = .ok ⟨1, "A"⟩ :=
  ⟨(create_task_validation initialStore none).1 rfl,
   ((create_task_validation initialStore (some "A")).2 "A" rfl).1⟩

/-- C3: creating a comment under a non-existent task id fails with NotFound
and leaves the store state exactly as it was — no Comment row is inserted. -/
theorem add_comment_missing_task (s : StoreState) (i : Int) (p : CommentCreate)
    (h : findTask s i = none) :
    add_comment s i p = (s, .error (.notFound "Task not found")) := by
  simp [add_comment, h]

/-- C3, witness: adding a comment under absent task id 5 in the sample store. -/
theorem add_comment_missing_task_witness :
    findTask sampleStore 5 = none ∧
    add_comment sampleStore 5 ⟨"bob", "hi"⟩ =
      (sampleStore, .error (.notFound "Task not found")) :=
  ⟨rfl, add_comment_missing_task sampleStore 5 ⟨"bob", "hi"⟩ rfl⟩

/-- C9: every handler that can fail with NotFound — task update, task delete,
comment update, comment delete — performs the existence lookup first, so on an
absent id it returns NotFound with the store state unchanged. -/
theorem notfound_no_mutation (s : StoreState) (i j : Int) (p : TaskUpdate)
    (q : CommentUpdate)
    (hT : findTask s i = none) (hC : findComment s j = none) :
    update_task s i p = (s, .error (.notFound "Task not found")) ∧
    delete_task s i = (s, .error (.notFound "Task not found")) ∧
    update_comment s j q = (s, .error (.notFound "Comment not found")) ∧
    delete_comment s j = (s, .error (.notFound "Comment not found")) := by
  refine ⟨?_, ?_, ?_, ?_⟩ <;>
    simp [update_task, delete_task, update_comment, delete_comment, hT, hC]

/-- C9, witness: the four handlers at absent ids in the sample store. -/
theorem notfound_no_mutation_witness :
    findTask sampleStore 7 = none ∧ findComment sampleStore 9 = none ∧
    update_task sampleStore 7 ⟨some "B"⟩ =
      (sampleStore, .error (.notFound "Task not found")) ∧
    delete_task sampleStore 7 = (sampleStore, .error (.notFound "Task not found")) :=
  ⟨rfl, rfl,
   (notfound_no_mutation sampleStore 7 9 ⟨some "B"⟩ ⟨none, none⟩ rfl rfl).1,
   (notfound_no_mutation sampleStore 7 9 ⟨some "B"⟩ ⟨none, none⟩ rfl rfl).2.1⟩

/-- C10: validation on the two comment routes is asymmetric. Listing comments
rejects every non-positive task id with a validation failure before any store
access; creating a comment has no positivity check on the path id, so with a
non-positive id it reaches the store and fails with NotFound (stored task ids
are all positive, so the id matches no task), leaving the store unchanged. -/
theorem comment_route_validation_asymmetry (s : StoreState) (i : Int)
    (cc : CommentCreate) (hi : i ≤ 0) (hpos : ∀ t ∈ s.tasks, 0 < t.id) :
    list_comments s i = .error .validationFailure ∧
    add_comment s i cc = (s, .error (.notFound "Task not found")) := by
  have hnone : findTask s i = none := by
    rw [findTask, List.find?_eq_none]
    intro t htm
    have h1 := hpos t htm
    simp only [beq_iff_eq]
    omega
  constructor
  · rw [list_comments, if_pos hi]
  · simp [add_comment, hnone]

/-- C10, witness: both comment routes at task id 0 in the sample store. -/
theorem comment_route_validation_asymmetry_witness :
    (0 : Int) ≤ 0 ∧ (∀ t ∈ sampleStore.tasks, 0 < t.id) ∧
    list_comments sampleStore 0 = .error .validationFailure ∧
    add_comment sampleStore 0 ⟨"bob", "hi"⟩ =
      (sampleStore, .error (.notFound "Task not found")) :=
  ⟨by decide, by decide,
   (comment_route_validation_asymmetry sampleStore 0 ⟨"bob", "hi"⟩ (by decide)
     (by decide)).1,
   (comment_route_validation_asymmetry sampleStore 0 ⟨"bob", "hi"⟩ (by decide)
     (by decide)).2⟩

/-- C2: updating an existing task stores and returns a record whose id is
unchanged and whose title is the payload's title when that is present and
non-empty, and the previously stored title when the payload's title is omitted
or empty. -/
theorem update_task_title_semantics (s : StoreState) (i : Int) (p : TaskUpdate)
    (t : Task) (ht : findTask s i = some t) :
    ∃ t', (update_task s i p).2 = .ok t' ∧
      findTask (update_task s i p).1 i = some t' ∧
      t'.id = t.id ∧
      (∀ x, p.title = some x → x ≠ "" → t'.title = x) ∧
      ((p.title = none ∨ p.title = some "") → t'.title = t.title) := by
  simp only [findTask] at ht
  have hbeq : (t.id == i) = true := by simpa using List.find?_some ht
  simp only [update_task, findTask, ht]
  refine ⟨_, rfl, ?_, rfl, ?_, ?_⟩
  · refine find?_map_ite (fun a => a.id == i) _ t s.tasks ht ?_
    exact hbeq
  · intro x hx hne
    simp [hx, hne]
  · intro h
    rcases h with h | h <;> simp [h]

/-- C2, witness: replacing the title of the sample store's task. -/
theorem update_task_title_semantics_witness :
    findTask sampleStore 1 = some ⟨1, "A"⟩ ∧
    ∃ t', (update_task sampleStore 1 ⟨some "B"⟩).2 = .ok t' ∧
      findTask (update_task sampleStore 1 ⟨some "B"⟩).1 1 = some t' ∧
      t'.id = (1 : Int) ∧
      (∀ x, (some "B" : Option String) = some x → x ≠ "" → t'.title = x) ∧
      (((some "B" : Option String) = none ∨ (some "B" : Option String) = some "") →
        t'.title = "A") :=
  ⟨rfl, update_task_title_semantics sampleStore 1 ⟨some "B"⟩ ⟨1, "A"⟩ rfl⟩

/-- C4: deleting an existing task succeeds, a subsequent fetch of that task id
yields NotFound, and the comment table is untouched — every comment remains
retrievable by its id exactly as before. -/
theorem delete_task_then_get (s : StoreState) (T : Int) (t : Task)
    (h : findTask s T = some t) :
    (delete_task s T).2 = .ok () ∧
    get_task (delete_task s T).1 T = .error (.notFound "Task not found") ∧
    (delete_task s T).1.comments = s.comments ∧
    (∀ cid, get_comment (delete_task s T).1 cid = get_comment s cid) := by
  simp only [delete_task, findTask] at h ⊢
  rw [h]
  refine ⟨rfl, ?_, rfl, fun cid => rfl⟩
  simp only [get_task, findTask]
  rw [find?_filter_bne Task.id T s.tasks]

/-- C4, witness: deleting task 1 from the sample store keeps its comment. -/
theorem delete_task_then_get_witness :
    findTask sampleStore 1 = some ⟨1, "A"⟩ ∧
    get_task (delete_task sampleStore 1).1 1 =
      .error (.notFound "Task not found") ∧
    get_comment (delete_task sampleStore 1).1 1 = get_comment sampleStore 1 :=
  ⟨rfl, (delete_task_then_get sampleStore 1 ⟨1, "A"⟩ rfl).2.1,
   (delete_task_then_get sampleStore 1 ⟨1, "A"⟩ rfl).2.2.2 1⟩

/-- C5: listing comments for an existing (positive) task id returns exactly
the stored comments whose task_id equals that id. -/
theorem list_comments_exact (s : StoreState) (T : Int) (t : Task)
    (hpos : 0 < T) (hT : findTask s T = some t) :
    ∃ cs, list_comments s T = .ok cs ∧
      ∀ c, c ∈ cs ↔ (c ∈ s.comments ∧ c.task_id = T) := by
  simp only [list_comments, findTask] at hT ⊢
  rw [if_neg (by omega), hT]
  exact ⟨_, rfl, fun c => by simp [List.mem_filter]⟩

/-- C5, witness: listing comments of task 1 in the sample store. -/
theorem list_comments_exact_witness :
    (0 : Int) < 1 ∧ findTask sampleStore 1 = some ⟨1, "A"⟩ ∧
    ∃ cs, list_comments sampleStore 1 = .ok cs ∧
      ∀ c, c ∈ cs ↔ (c ∈ sampleStore.comments ∧ c.task_id = 1) :=
  ⟨by decide, rfl, list_comments_exact sampleStore 1 ⟨1, "A"⟩ (by decide) rfl⟩

/-- C6: updating an existing comment stores and returns a record whose id and
task_id are unchanged; author and content are each replaced by the payload's
value exactly when that value is present and non-empty, and otherwise keep
their stored value. -/
theorem update_comment_field_semantics (s : StoreState) (i : Int)
    (p : CommentUpdate) (c : Comment) (hc : findComment s i = some c) :
    ∃ c', (update_comment s i p).2 = .ok c' ∧
      findComment (update_comment s i p).1 i = some c' ∧
      c'.id = c.id ∧ c'.task_id = c.task_id ∧
      (∀ x, p.author = some x → x ≠ "" → c'.author = x) ∧
      ((p.author = none ∨ p.author = some "") → c'.author = c.author) ∧
      (∀ x, p.content = some x → x ≠ "" → c'.content = x) ∧
      ((p.content = none ∨ p.content = some "") → c'.content = c.content) := by
  simp only [findComment] at hc
  have hbeq : (c.id == i) = true := by simpa using List.find?_some hc
  simp only [update_comment, findComment, hc]
  refine ⟨_, rfl, ?_, rfl, rfl, ?_, ?_, ?_, ?_⟩
  · refine find?_map_ite (fun a => a.id == i) _ c s.comments hc ?_
    exact hbeq
  · intro x hx hne
    simp [hx, hne]
  · intro h
    rcases h with h | h <;> simp [h]
  · intro x hx hne
    simp [hx, hne]
  · intro h
    rcases h with h | h <;> simp [h]

/-- C6, witness: updating the sample store's comment with a new author and an
empty content; the author changes, the content does not. -/
theorem update_comment_field_semantics_witness :
    findComment sampleStore 1 = some ⟨1, 1, "bob", "hi"⟩ ∧
    ∃ c', (update_comment sampleStore 1 ⟨some "eve", some ""⟩).2 = .ok c' ∧
      findComment (update_comment sampleStore 1 ⟨some "eve", some ""⟩).1 1 =
        some c' ∧
      c'.id = (1 : Int) ∧ c'.task_id = (1 : Int) ∧
      (∀ x, (some "eve" : Option String) = some x → x ≠ "" → c'.author = x) ∧
      (((some "eve" : Option String) = none ∨
        (some "eve" : Option String) = some "") → c'.author = "bob") ∧
      (∀ x, (some "" : Option String) = some x → x ≠ "" → c'.content = x) ∧
      (((some "" : Option String) = none ∨
        (some "" : Option String) = some "") → c'.content = "hi") :=
  ⟨rfl, update_comment_field_semantics sampleStore 1 ⟨some "eve", some ""⟩
    ⟨1, 1, "bob", "hi"⟩ rfl⟩

/-- C7: creating a task returns the stored record, carrying the requested
title and the store-generated id, and fetching that id afterwards returns the
very same record (so in particular the same title). -/
theorem create_then_get (s : StoreState) (title : String)
    (hfresh : ∀ u ∈ s.tasks, u.id ≠ s.nextTaskId) :
    (create_task s ⟨title⟩).2.title = title ∧
    (create_task s ⟨title⟩).2.id = s.nextTaskId ∧
    get_task (create_task s ⟨title⟩).1 ((create_task s ⟨title⟩).2.id) =
      .ok (create_task s ⟨title⟩).2 := by
  refine ⟨rfl, rfl, ?_⟩
  simp only [create_task, get_task, findTask]
  rw [find?_append_fresh _ s.tasks _ (fun x hx => by simp [hfresh x hx])
    (by simp)]

/-- C7, witness: create on the fresh store, then fetch. -/
theorem create_then_get_witness :
    (∀ u ∈ initialStore.tasks, u.id ≠ initialStore.nextTaskId) ∧
    (create_task initialStore ⟨"A"⟩).2.title = "A" ∧
    get_task (create_task initialStore ⟨"A"⟩).1
        ((create_task initialStore ⟨"A"⟩).2.id) =
      .ok (create_task initialStore ⟨"A"⟩).2 :=
  ⟨by simp [initialStore], (create_then_get initialStore "A" (by simp [initialStore])).1,
   (create_then_get initialStore "A" (by simp [initialStore])).2.2⟩

/-- C8: stored ids are immutable. Task update preserves every stored task's id
pointwise and touches no comment; comment update preserves every stored
comment's id pointwise and touches no task; both updates return a
record whose id is the path id; creates only append (every previously stored
row is kept verbatim); deletes only remove rows (every surviving row was
stored before, unchanged). -/
theorem ids_immutable (s : StoreState) (i : Int) (p : TaskUpdate)
    (q : CommentUpdate) (tc : TaskCreate) (cc : CommentCreate) :
    (update_task s i p).1.tasks.map Task.id = s.tasks.map Task.id ∧
    (update_task s i p).1.comments = s.comments ∧
    (∀ t', (update_task s i p).2 = .ok t' → t'.id = i) ∧
    ((update_comment s i q).1.comments.map Comment.id =
      s.comments.map Comment.id) ∧
    (update_comment s i q).1.tasks = s.tasks ∧
    (∀ c', (update_comment s i q).2 = .ok c' → c'.id = i) ∧
    (create_task s tc).1.tasks = s.tasks ++ [(create_task s tc).2] ∧
    (∃ tail, (add_comment s i cc).1.comments = s.comments ++ tail) ∧
    (∀ t ∈ (delete_task s i).1.tasks, t ∈ s.tasks) ∧
    (∀ c ∈ (delete_comment s i).1.comments, c ∈ s.comments) := by
  refine ⟨?_, ?_, ?_, ?_, ?_, ?_, rfl, ?_, ?_, ?_⟩
  · rcases hft : findTask s i with _ | t
    · simp [update_task, hft]
    · simp only [findTask] at hft
      have hbeq : t.id = i := by simpa using List.find?_some hft
      simp only [update_task, findTask, hft]
      refine map_ite_preserves Task.id _ _ s.tasks ?_
      intro a ha
      have ha' : a.id = i := by simpa using ha
      simp [hbeq, ha']
  · rcases hft : findTask s i with _ | t <;> simp [update_task, hft]
  · rcases hft : findTask s i with _ | t
    · simp [update_task, hft]
    · simp only [findTask] at hft
      have hbeq : t.id = i := by simpa using List.find?_some hft
      simp only [update_task, findTask, hft]
      intro t' h
      injection h with h
      subst h
      exact hbeq
  · rcases hfc : findComment s i with _ | c
    · simp [update_comment, hfc]
    · simp only [findComment] at hfc
      have hbeq : c.id = i := by simpa using List.find?_some hfc
      simp only [update_comment, findComment, hfc]
      refine map_ite_preserves Comment.id _ _ s.comments ?_
      intro a ha
      have ha' : a.id = i := by simpa using ha
      simp [hbeq, ha']
  · rcases hfc : findComment s i with _ | c <;> simp [update_comment, hfc]
  · rcases hfc : findComment s i with _ | c
    · simp [update_comment, hfc]
    · simp only [findComment] at hfc
      have hbeq : c.id = i := by simpa using List.find?_some hfc
      simp only [update_comment, findComment, hfc]
      intro c' h
      injection h with h
      subst h
      exact hbeq
  · rcases hft : findTask s i with _ | t
    · exact ⟨[], by simp [add_comment, hft]⟩
    · exact ⟨[⟨s.nextCommentId, i, cc.author, cc.content⟩],
        by simp [add_comment, hft]⟩
  · rcases hft : findTask s i with _ | t
    · simp [delete_task, hft]
    · simp only [delete_task, findTask] at hft ⊢
      rw [hft]
      exact fun t ht => List.mem_of_mem_filter ht
  · rcases hfc : findComment s i with _ | c
    · simp [delete_comment, hfc]
    · simp only [delete_comment, findComment] at hfc ⊢
      rw [hfc]
      exact fun c hc => List.mem_of_mem_filter hc

/-- C8, witness: updating the sample store's task and comment keeps all stored
ids in place, and each update returns the path id. -/
theorem ids_immutable_witness :
    (update_task sampleStore 1 ⟨some "B"⟩).1.tasks.map Task.id =
      sampleStore.tasks.map Task.id ∧
    (Task.mk 1 "B").id = (1 : Int) ∧
    (Comment.mk 1 1 "eve" "hi").id = (1 : Int) :=
  ⟨(ids_immutable sampleStore 1 ⟨some "B"⟩ ⟨some "eve", none⟩ ⟨"A"⟩
      ⟨"bob", "hi"⟩).1,
   (ids_immutable sampleStore 1 ⟨some "B"⟩ ⟨some "eve", none⟩ ⟨"A"⟩
      ⟨"bob", "hi"⟩).2.2.1 ⟨1, "B"⟩ rfl,
   (ids_immutable sampleStore 1 ⟨some "B"⟩ ⟨some "eve", none⟩ ⟨"A"⟩
      ⟨"bob", "hi"⟩).2.2.2.2.2.1 ⟨1, 1, "eve", "hi"⟩ rfl⟩

end Api
